import Mathlib

/-- Per-letter status values in the JSON result entries of `_evaluate_guess`
(routes.py): `correct`, `present`, `absent`. -/
inductive LStatus where
  | correct
  | present
  | absent
deriving DecidableEq, Repr

/-- First pass of `_evaluate_guess` (routes.py, lines 56-60): positions with an
exact match are marked correct and the matched target letter is consumed
(set to `none` in `target_remaining`). Returns the partially filled result
array (letter paired with an optional status) and the remaining pool. -/
def firstPass (guess target : List Char) :
    List (Char × Option LStatus) × List (Option Char) :=
  (List.zipWith (fun g t => (g, if g = t then some LStatus.correct else none)) guess target,
   List.zipWith (fun g t => if g = t then none else some t) guess target)

/-- Consumption step of the second pass: Python tests `letter in target_remaining`
and then blanks `target_remaining[target_remaining.index(letter)]`. `consume`
returns the pool with the first occurrence of `some c` replaced by `none`,
or `none` when the letter is not in the pool. -/
def consume (c : Char) : List (Option Char) → Option (List (Option Char))
  | [] => none
  | o :: rest =>
    if o = some c then some (none :: rest)
    else
      match consume c rest with
      | some rest2 => some (o :: rest2)
      | none => none

/-- Second pass of `_evaluate_guess` (routes.py, lines 62-71): positions already
marked keep their status; an unmarked letter still present in the pool is
marked present (consuming one occurrence), otherwise absent. -/
def secondPass : List (Char × Option LStatus) → List (Option Char) → List (Char × LStatus)
  | [], _ => []
  | (c, some s) :: rest, pool => (c, s) :: secondPass rest pool
  | (c, none) :: rest, pool =>
    match consume c pool with
    | some pool2 => (c, LStatus.present) :: secondPass rest pool2
    | none => (c, LStatus.absent) :: secondPass rest pool

/-- Embedding of `_evaluate_guess(guess, target)` (routes.py, lines 45-73). -/
def evaluateGuess (guess target : List Char) : List (Char × LStatus) :=
  let p := firstPass guess target
  secondPass p.1 p.2

/-- Number of positions of the evaluation output whose letter is `L` and whose
status is correct or present. -/
def countHits (L : Char) (out : List (Char × LStatus)) : Nat :=
  out.countP (fun e => decide (e.1 = L ∧ e.2 ≠ LStatus.absent))

/-- Number of first-pass entries with letter `L` already carrying a status other
than absent (after pass one these are exactly the correct marks). -/
def preMarked (L : Char) (r : List (Char × Option LStatus)) : Nat :=
  r.countP (fun e => decide (e.1 = L ∧ e.2 ≠ none ∧ e.2 ≠ some LStatus.absent))

/-- Game status values stored in `games.status`: `active`, `won`, `lost`. -/
inductive GStatus where
  | active
  | won
  | lost
deriving DecidableEq, Repr

/-- Row of the `players` table (id, name, fingerprint). -/
structure PlayerRec where
  id : Nat
  name : List Char
  fingerprint : List Char
deriving DecidableEq, Repr

/-- Row of the `words` table (id, word). -/
structure WordRec where
  id : Nat
  word : List Char
deriving DecidableEq, Repr

/-- Row of the `games` table: id, player_id, word_id, status, num_guesses,
completed_at (a timestamp modelled as a `Nat`). -/
structure GameRec where
  id : Nat
  playerId : Nat
  wordId : Nat
  status : GStatus
  numGuesses : Nat
  completedAt : Option Nat
deriving DecidableEq, Repr

/-- Row of the `guesses` table: game_id, guess_word, guess_number, result. -/
structure GuessRec where
  gameId : Nat
  guessWord : List Char
  guessNumber : Nat
  result : List (Char × LStatus)
deriving DecidableEq, Repr

/-- Database state shared by all routes: the four tables, the serial-id counters
for players and games, and `now`, the clock value returned by SQL `NOW()`. -/
structure DB where
  players : List PlayerRec
  words : List WordRec
  games : List GameRec
  guesses : List GuessRec
  nextPlayerId : Nat
  nextGameId : Nat
  now : Nat
deriving DecidableEq, Repr

/-- Error responses of the API routes: invalidInput (400 name required),
conflict (409 already registered), unregistered (401), notFound (404 player),
noActiveGame (404), invalidGuess (400 malformed), unknownWord (400 not in
bank), noWords (500 empty bank). -/
inductive ApiError where
  | invalidInput
  | conflict
  | unregistered
  | notFound
  | noActiveGame
  | invalidGuess
  | unknownWord
  | noWords
deriving DecidableEq, Repr

/-- Embedding of `_player_by_fingerprint` (routes.py, line 28): the SELECT by
fingerprint, first matching row. -/
def playerByFingerprint (db : DB) (fp : List Char) : Option PlayerRec :=
  db.players.find? (fun p => decide (p.fingerprint = fp))

/-- Query for the player's game WHERE `player_id = pid AND status = 'active'`
with `one=True` (routes.py, lines 134-139 and 193-198). -/
def activeGame (db : DB) (pid : Nat) : Option GameRec :=
  db.games.find? (fun g => decide (g.playerId = pid ∧ g.status = GStatus.active))

/-- First `games` row with the given id. -/
def gameById (db : DB) (gid : Nat) : Option GameRec :=
  db.games.find? (fun g => decide (g.id = gid))

/-- First `words` row with the given id; models the JOIN `words w ON w.id =
g.word_id` in the guess route. -/
def wordById (db : DB) (wid : Nat) : Option WordRec :=
  db.words.find? (fun w => decide (w.id = wid))

/-- Insertion step of the sort used to model SQL `ORDER BY guess_number`. -/
def insertByNumber (x : GuessRec) : List GuessRec → List GuessRec
  | [] => [x]
  | y :: rest =>
    if x.guessNumber ≤ y.guessNumber then x :: y :: rest else y :: insertByNumber x rest

/-- Insertion sort by guess_number, modelling SQL `ORDER BY guess_number`. -/
def sortByNumber : List GuessRec → List GuessRec
  | [] => []
  | x :: rest => insertByNumber x (sortByNumber rest)

/-- Query `SELECT guess_word, guess_number, result FROM guesses WHERE game_id =
%s ORDER BY guess_number` (routes.py, lines 141-145, 202-206, 290-294). -/
def guessesOf (db : DB) (gid : Nat) : List GuessRec :=
  sortByNumber (db.guesses.filter (fun q => decide (q.gameId = gid)))

/-- Serialized guess entry as returned in responses (guess, guess_number,
result). -/
structure GuessEntry where
  guess : List Char
  guessNumber : Nat
  result : List (Char × LStatus)
deriving DecidableEq, Repr

/-- Serialization of one guesses row into a response entry. -/
def entryOf (q : GuessRec) : GuessEntry :=
  { guess := q.guessWord, guessNumber := q.guessNumber, result := q.result }

/-- Body of a successful `/api/game/new` response: game_id and guesses. -/
structure StartResp where
  gameId : Nat
  guesses : List GuessEntry
deriving DecidableEq, Repr

/-- Body of a successful `/api/game/current` response. -/
structure CurrentResp where
  gameId : Nat
  status : GStatus
  numGuesses : Nat
  guesses : List GuessEntry
deriving DecidableEq, Repr

/-- Body of a successful `/api/game/guess` response; `answer` is the optional
revealed target (present only in the JSON when the game was just lost). -/
structure GuessResp where
  gameId : Nat
  status : GStatus
  numGuesses : Nat
  latest : GuessEntry
  guesses : List GuessEntry
  answer : Option (List Char)
deriving DecidableEq, Repr

/-- Whitespace characters removed by Python `str.strip()`, restricted to the
ASCII range (space, tab, newline, carriage return, vertical tab, form feed). -/
def isSpace (c : Char) : Bool :=
  c == ' ' || c == '\t' || c == '\n' || c == '\r' ||
  c.toNat == 0x0b || c.toNat == 0x0c

/-- Python `str.strip()`: drop leading and trailing whitespace. -/
def pyStrip (s : List Char) : List Char :=
  (((s.dropWhile isSpace).reverse).dropWhile isSpace).reverse

/-- Python `str.lower()` restricted to the Latin-1 range: A-Z and the accented
uppercase letters U+00C0..U+00DE (except the multiplication sign U+00D7) map
down by 0x20; everything else is unchanged. -/
def pyLower (c : Char) : Char :=
  if 0x41 ≤ c.toNat ∧ c.toNat ≤ 0x5A then Char.ofNat (c.toNat + 0x20)
  else if 0xC0 ≤ c.toNat ∧ c.toNat ≤ 0xDE ∧ c.toNat ≠ 0xD7 then Char.ofNat (c.toNat + 0x20)
  else c

/-- Python `str.isalpha` on a single character, restricted to the Latin-1 range
(U+0000..U+00FF): ASCII letters, the letters U+00AA, U+00B5, U+00BA, and
U+00C0..U+00FF except the multiplication and division signs U+00D7, U+00F7.
Codepoints above U+00FF are outside the model and mapped to false, which only
narrows the set of guesses the embedded format check accepts. -/
def pyIsAlpha (c : Char) : Bool :=
  (0x41 ≤ c.toNat && c.toNat ≤ 0x5A) || (0x61 ≤ c.toNat && c.toNat ≤ 0x7A) ||
  c.toNat == 0xAA || c.toNat == 0xB5 || c.toNat == 0xBA ||
  (0xC0 ≤ c.toNat && c.toNat ≤ 0xFF && c.toNat != 0xD7 && c.toNat != 0xF7)

/-- Embedding of the `register` route (routes.py, lines 94-112): empty name
after strip fails first, then the fingerprint-conflict check, then the
INSERT with the next serial id. -/
def register (db : DB) (fp rawName : List Char) : Except ApiError PlayerRec × DB :=
  let name := pyStrip rawName
  if name = [] then (.error .invalidInput, db)
  else
    match playerByFingerprint db fp with
    | some _ => (.error .conflict, db)
    | none =>
      let p : PlayerRec := { id := db.nextPlayerId, name := name, fingerprint := fp }
      (.ok p, { db with players := db.players ++ [p], nextPlayerId := db.nextPlayerId + 1 })

/-- Subquery `SELECT word_id FROM games WHERE player_id = %s` (routes.py,
line 161). -/
def playedWordIds (db : DB) (pid : Nat) : List Nat :=
  (db.games.filter (fun g => decide (g.playerId = pid))).map (fun g => g.wordId)

/-- Words satisfying `id NOT IN (SELECT word_id FROM games WHERE player_id =
%s)` (routes.py, lines 159-165). -/
def unseenWords (db : DB) (pid : Nat) : List WordRec :=
  db.words.filter (fun w => decide (w.id ∉ playedWordIds db pid))

/-- Model of `ORDER BY RANDOM() LIMIT 1`: the randomness is an oracle index `k`
choosing `pool[k % pool.length]`; `none` exactly when the pool is empty.
Every element of the pool is picked by some oracle value, and nothing outside
the pool is ever picked. -/
def randomPick (pool : List WordRec) (k : Nat) : Option WordRec :=
  if h : pool.length = 0 then none
  else some (pool.get ⟨k % pool.length, Nat.mod_lt _ (Nat.pos_of_ne_zero h)⟩)

/-- Embedding of the `new_game` route (routes.py, lines 124-183): resume an
active game if one exists, otherwise pick an unseen word (falling back to
the whole bank), otherwise 500, and INSERT the new game. -/
def new_game (db : DB) (fp : List Char) (k : Nat) : Except ApiError StartResp × DB :=
  match playerByFingerprint db fp with
  | none => (.error .unregistered, db)
  | some player =>
    match activeGame db player.id with
    | some g =>
      (.ok { gameId := g.id, guesses := (guessesOf db g.id).map entryOf }, db)
    | none =>
      let word :=
        match randomPick (unseenWords db player.id) k with
        | some w => some w
        | none => randomPick db.words k
      match word with
      | none => (.error .noWords, db)
      | some w =>
        let g : GameRec := { id := db.nextGameId, playerId := player.id, wordId := w.id,
                             status := GStatus.active, numGuesses := 0, completedAt := none }
        (.ok { gameId := g.id, guesses := [] },
         { db with games := db.games ++ [g], nextGameId := db.nextGameId + 1 })

/-- Embedding of the `current_game` route (routes.py, lines 186-220). -/
def current_game (db : DB) (fp : List Char) : Except ApiError CurrentResp × DB :=
  match playerByFingerprint db fp with
  | none => (.error .unregistered, db)
  | some player =>
    match activeGame db player.id with
    | none => (.error .noActiveGame, db)
    | some g =>
      (.ok { gameId := g.id, status := g.status, numGuesses := g.numGuesses,
             guesses := (guessesOf db g.id).map entryOf }, db)

/-- The guess route's opening query (routes.py, lines 230-236): the active game
JOINed with its target word. -/
def lookupTarget (db : DB) (pid : Nat) : Option (GameRec × List Char) :=
  match activeGame db pid with
  | none => none
  | some g =>
    match wordById db g.wordId with
    | none => none
    | some w => some (g, w.word)

/-- Dictionary check `SELECT 1 FROM words WHERE word = %s` (routes.py,
lines 247-251). -/
def inBank (db : DB) (w : List Char) : Bool :=
  db.words.any (fun r => decide (r.word = w))

/-- Everything the guess route computes before its first `execute_db` call:
the game row, target, normalized guess, next guess number, evaluation
result and next status. -/
structure GuessPlan where
  game : GameRec
  target : List Char
  word : List Char
  guessNumber : Nat
  result : List (Char × LStatus)
  newStatus : GStatus
deriving DecidableEq, Repr

/-- Validation and evaluation phase of the `guess` route (routes.py,
lines 223-267): player lookup, active-game lookup, strip/lower
normalization, length-and-isalpha format check, dictionary membership,
then evaluation and status computation. No state is touched here. -/
def planGuess (db : DB) (fp rawGuess : List Char) : Except ApiError GuessPlan :=
  match playerByFingerprint db fp with
  | none => .error .unregistered
  | some player =>
    match lookupTarget db player.id with
    | none => .error .noActiveGame
    | some (g, target) =>
      let w := (pyStrip rawGuess).map pyLower
      if ¬ (w.length = 5) ∨ ¬ (w.all pyIsAlpha = true) then .error .invalidGuess
      else if ¬ (inBank db w = true) then .error .unknownWord
      else
        let n := g.numGuesses + 1
        let won := w = target
        let lost := n = 6 ∧ ¬ won
        .ok { game := g, target := target, word := w, guessNumber := n,
              result := evaluateGuess w target,
              newStatus := if won then GStatus.won
                           else if lost then GStatus.lost else GStatus.active }

/-- First mutation of the guess route (routes.py, lines 270-274): the INSERT
INTO guesses. `execute_db` commits this statement in its own transaction. -/
def insertGuess (db : DB) (p : GuessPlan) : DB :=
  { db with guesses := db.guesses ++
      [{ gameId := p.game.id, guessWord := p.word,
         guessNumber := p.guessNumber, result := p.result }] }

/-- Per-row effect of the games UPDATE (routes.py, lines 277-287): on the
matching id, terminal transitions set num_guesses, status and
completed_at = NOW(); otherwise only num_guesses. -/
def applyUpdate (p : GuessPlan) (ts : Nat) (g : GameRec) : GameRec :=
  if g.id = p.game.id then
    if p.newStatus = GStatus.won ∨ p.newStatus = GStatus.lost then
      { g with numGuesses := p.guessNumber, status := p.newStatus, completedAt := some ts }
    else { g with numGuesses := p.guessNumber }
  else g

/-- Second mutation of the guess route: the UPDATE of the games row, again
committed by `execute_db` as its own transaction. -/
def updateGame (db : DB) (p : GuessPlan) : DB :=
  { db with games := db.games.map (applyUpdate p db.now) }

/-- Embedding of the whole `guess` route (routes.py, lines 223-318):
validation, the two mutations in order, and the response, whose `answer`
field is present exactly when the transition is to lost (the code guards it
with the `lost` flag, which holds iff the new status is lost). -/
def guessOp (db : DB) (fp rawGuess : List Char) : Except ApiError GuessResp × DB :=
  match planGuess db fp rawGuess with
  | .error e => (.error e, db)
  | .ok p =>
    let db2 := updateGame (insertGuess db p) p
    (.ok { gameId := p.game.id, status := p.newStatus, numGuesses := p.guessNumber,
           latest := { guess := p.word, guessNumber := p.guessNumber, result := p.result },
           guesses := (guessesOf db2 p.game.id).map entryOf,
           answer := if p.newStatus = GStatus.lost then some p.target else none }, db2)

deriving instance DecidableEq for Except

/-- Concrete state: one registered player with an active game on target
"apple" and one recorded guess "crane". -/
def dbActive : DB :=
  { players := [⟨1, "bob".toList, "f".toList⟩],
    words := [⟨1, "apple".toList⟩, ⟨2, "crane".toList⟩],
    games := [⟨1, 1, 1, GStatus.active, 1, none⟩],
    guesses := [⟨1, "crane".toList, 1, evaluateGuess "crane".toList "apple".toList⟩],
    nextPlayerId := 2, nextGameId := 2, now := 100 }

/-- Concrete state: one registered player with a fresh active game on target
"apple" and no guesses yet. -/
def dbFresh : DB :=
  { players := [⟨1, "bob".toList, "f".toList⟩],
    words := [⟨1, "apple".toList⟩],
    games := [⟨1, 1, 1, GStatus.active, 0, none⟩],
    guesses := [], nextPlayerId := 2, nextGameId := 2, now := 100 }

/-- Concrete state: one registered player whose only game is finished, so a new
game can be started; "crane" is the unseen word. -/
def dbDone : DB :=
  { players := [⟨1, "bob".toList, "f".toList⟩],
    words := [⟨1, "apple".toList⟩, ⟨2, "crane".toList⟩],
    games := [⟨1, 1, 1, GStatus.won, 2, some 50⟩],
    guesses := [], nextPlayerId := 2, nextGameId := 2, now := 100 }

/-- Evaluation result of guessing "apple" against "apple". -/
def allCorrect : List (Char × LStatus) :=
  [('a', LStatus.correct), ('p', LStatus.correct), ('p', LStatus.correct),
   ('l', LStatus.correct), ('e', LStatus.correct)]

/-- Response of the winning "apple" guess played from `dbFresh`. -/
def wonResp : GuessResp :=
  { gameId := 1, status := GStatus.won, numGuesses := 1,
    latest := ⟨"apple".toList, 1, allCorrect⟩,
    guesses := [⟨"apple".toList, 1, allCorrect⟩],
    answer := none }

/-- State after the winning "apple" guess played from `dbFresh`. -/
def dbFreshWon : DB :=
  { players := [⟨1, "bob".toList, "f".toList⟩],
    words := [⟨1, "apple".toList⟩],
    games := [⟨1, 1, 1, GStatus.won, 1, some 100⟩],
    guesses := [⟨1, "apple".toList, 1, allCorrect⟩],
    nextPlayerId := 2, nextGameId := 2, now := 100 }

/-- Durably committed states during one guess submission. `execute_db`
(db.py, lines 59-72) takes a fresh connection and commits after each single
statement, so the INSERT of the guess row and the UPDATE of the games row
are two separate transactions: after the first commit the guess row is
durable while the games row is not yet updated. -/
def guessCommitStates (db : DB) (fp raw : List Char) : List DB :=
  match planGuess db fp raw with
  | .error _ => [db]
  | .ok p => [db, insertGuess db p, updateGame (insertGuess db p) p]

/-- The intermediate committed state of a winning "apple" submission from
`dbFresh`: the guess row is stored, the games row is untouched. -/
def midState : DB :=
  match planGuess dbFresh "f".toList "apple".toList with
  | .error _ => dbFresh
  | .ok p => insertGuess dbFresh p

/-- Invariant of claim C3: every player id has at most one games row that is
active. -/
def OneActivePerPlayer (db : DB) : Prop :=
  ∀ pid : Nat,
    db.games.countP (fun g => decide (g.playerId = pid ∧ g.status = GStatus.active)) ≤ 1

theorem consume_count (c : Char) (pool pool2 : List (Option Char))
    (h : consume c pool = some pool2) (L : Char) :
    pool.count (some L) = pool2.count (some L) + (if c = L then 1 else 0) := by
  induction pool generalizing pool2 with
  | nil => simp [consume] at h
  | cons o rest ih =>
    rw [consume] at h
    by_cases ho : o = some c
    · simp [ho] at h
      subst h
      subst ho
      by_cases hc : c = L <;> simp [List.count_cons, hc]
    · simp [ho] at h
      cases hr : consume c rest with
      | none => rw [hr] at h; simp at h
      | some rest2 =>
        rw [hr] at h
        simp at h
        subst h
        have hrec := ih rest2 hr
        simp only [List.count_cons, hrec]
        omega

theorem consume_mem (c : Char) (pool : List (Option Char))
    (h : some c ∈ pool) : ∃ pool2, consume c pool = some pool2 := by
  induction pool with
  | nil => simp at h
  | cons o rest ih =>
    rw [consume]
    by_cases ho : o = some c
    · simp [ho]
    · have h2 : some c ∈ rest := by
        rcases List.mem_cons.mp h with h1 | h1
        · exact absurd h1.symm ho
        · exact h1
      rcases ih h2 with ⟨pool2, hp⟩
      simp [ho, hp]

theorem secondPass_countHits (L : Char) (r : List (Char × Option LStatus))
    (pool : List (Option Char)) :
    countHits L (secondPass r pool) ≤ preMarked L r + pool.count (some L) := by
  induction r generalizing pool with
  | nil => simp [secondPass, countHits, preMarked]
  | cons e rest ih =>
    obtain ⟨c, os⟩ := e
    cases os with
    | some s =>
      rw [secondPass]
      have hih := ih pool
      unfold countHits preMarked at hih ⊢
      simp only [List.countP_cons]
      by_cases hc : c = L <;> by_cases hs : s = LStatus.absent <;>
        simp [hc, hs] at hih ⊢ <;> omega
    | none =>
      rw [secondPass]
      cases hcon : consume c pool with
      | some pool2 =>
        have hcc := consume_count c pool pool2 hcon L
        have hih := ih pool2
        unfold countHits preMarked at hih ⊢
        simp only [List.countP_cons]
        by_cases hc : c = L <;> simp [hc] at hcc hih ⊢ <;> omega
      | none =>
        have hih := ih pool
        unfold countHits preMarked at hih ⊢
        simp only [List.countP_cons]
        simp at hih ⊢
        omega

theorem firstPass_conservation (L : Char) (g t : List Char)
    (hlen : g.length = t.length) :
    preMarked L (firstPass g t).1 + (firstPass g t).2.count (some L) = t.count L := by
  induction g generalizing t with
  | nil =>
    cases t with
    | nil => simp [firstPass, preMarked]
    | cons tc tr => simp at hlen
  | cons gc gr ih =>
    cases t with
    | nil => simp at hlen
    | cons tc tr =>
      simp only [List.length_cons, Nat.succ.injEq] at hlen
      have hih := ih tr hlen
      unfold firstPass preMarked at hih ⊢
      simp only [List.zipWith_cons_cons, List.countP_cons, List.count_cons]
      by_cases ht : tc = L
      · subst ht
        by_cases hg : gc = tc <;> simp [hg] at hih ⊢ <;> omega
      · by_cases hg : gc = tc <;> simp [hg, ht] at hih ⊢ <;> omega

theorem secondPass_map_fst (r : List (Char × Option LStatus)) (pool : List (Option Char)) :
    (secondPass r pool).map Prod.fst = r.map Prod.fst := by
  induction r generalizing pool with
  | nil => simp [secondPass]
  | cons e rest ih =>
    obtain ⟨c, os⟩ := e
    cases os with
    | some s => simp [secondPass, ih]
    | none =>
      rw [secondPass]
      cases hcon : consume c pool with
      | some pool2 => simp [ih]
      | none => simp [ih]

theorem firstPass_map_fst (g t : List Char) (hlen : g.length = t.length) :
    ((firstPass g t).1).map Prod.fst = g := by
  induction g generalizing t with
  | nil => simp [firstPass]
  | cons gc gr ih =>
    cases t with
    | nil => simp at hlen
    | cons tc tr =>
      simp only [List.length_cons, Nat.succ.injEq] at hlen
      unfold firstPass at ih ⊢
      simp [ih tr hlen]

theorem secondPass_correct_iff (r : List (Char × Option LStatus))
    (pool : List (Option Char)) (i : Nat) :
    ((secondPass r pool)[i]?.map Prod.snd = some LStatus.correct ↔
      r[i]?.map Prod.snd = some (some LStatus.correct)) := by
  induction r generalizing pool i with
  | nil => simp [secondPass]
  | cons e rest ih =>
    obtain ⟨c, os⟩ := e
    cases os with
    | some s =>
      rw [secondPass]
      cases i with
      | zero => simp
      | succ j => simpa using ih pool j
    | none =>
      rw [secondPass]
      cases hcon : consume c pool with
      | some pool2 =>
        cases i with
        | zero => simp
        | succ j => simpa using ih pool2 j
      | none =>
        cases i with
        | zero => simp
        | succ j => simpa using ih pool j

theorem firstPass_correct_iff (g t : List Char) (i : Nat) (hi : i < g.length)
    (hlen : g.length = t.length) :
    (((firstPass g t).1)[i]?.map Prod.snd = some (some LStatus.correct) ↔ g[i]? = t[i]?) := by
  induction g generalizing t i with
  | nil => simp at hi
  | cons gc gr ih =>
    cases t with
    | nil => simp at hlen
    | cons tc tr =>
      simp only [List.length_cons, Nat.succ.injEq] at hlen
      unfold firstPass
      cases i with
      | zero =>
        simp only [List.zipWith_cons_cons, List.getElem?_cons_zero, Option.map_some]
        by_cases hg : gc = tc <;> simp [hg]
      | succ j =>
        simp only [List.length_cons, Nat.succ_lt_succ_iff] at hi
        have := ih tr j hi hlen
        unfold firstPass at this
        simpa using this

theorem insertByNumber_perm (x : GuessRec) (l : List GuessRec) :
    (insertByNumber x l).Perm (x :: l) := by
  induction l with
  | nil => simp [insertByNumber]
  | cons y rest ih =>
    rw [insertByNumber]
    by_cases h : x.guessNumber ≤ y.guessNumber
    · simp [h]
    · rw [if_neg h]
      exact (List.Perm.cons y ih).trans (List.Perm.swap x y rest)

theorem sortByNumber_perm (l : List GuessRec) : (sortByNumber l).Perm l := by
  induction l with
  | nil => simp [sortByNumber]
  | cons x rest ih =>
    rw [sortByNumber]
    exact ((insertByNumber_perm x (sortByNumber rest)).trans (List.Perm.cons x ih))

theorem insertByNumber_sorted (x : GuessRec) (l : List GuessRec)
    (h : l.Pairwise (fun a b => a.guessNumber ≤ b.guessNumber)) :
    (insertByNumber x l).Pairwise (fun a b => a.guessNumber ≤ b.guessNumber) := by
  induction l with
  | nil => simp [insertByNumber]
  | cons y rest ih =>
    rw [insertByNumber]
    rcases List.pairwise_cons.mp h with ⟨hy, hrest⟩
    by_cases hxy : x.guessNumber ≤ y.guessNumber
    · rw [if_pos hxy]
      refine List.pairwise_cons.mpr ⟨?_, h⟩
      intro b hb
      rcases List.mem_cons.mp hb with rfl | hb
      · exact hxy
      · exact le_trans hxy (hy b hb)
    · rw [if_neg hxy]
      refine List.pairwise_cons.mpr ⟨?_, ih hrest⟩
      intro b hb
      have hb2 := (insertByNumber_perm x rest).mem_iff.mp hb
      rcases List.mem_cons.mp hb2 with rfl | hb2
      · omega
      · exact hy b hb2

theorem sortByNumber_sorted (l : List GuessRec) :
    (sortByNumber l).Pairwise (fun a b => a.guessNumber ≤ b.guessNumber) := by
  induction l with
  | nil => simp [sortByNumber]
  | cons x rest ih => exact insertByNumber_sorted x (sortByNumber rest) ih

theorem guessesOf_perm (db : DB) (gid : Nat) :
    (guessesOf db gid).Perm (db.guesses.filter (fun q => decide (q.gameId = gid))) :=
  sortByNumber_perm _

theorem mem_guessesOf (db : DB) (gid : Nat) (q : GuessRec) :
    q ∈ guessesOf db gid ↔ q ∈ db.guesses ∧ q.gameId = gid := by
  rw [(guessesOf_perm db gid).mem_iff]
  simp [List.mem_filter]

theorem find?_map_comm {α : Type} (f : α → α) (pred : α → Bool) (l : List α)
    (hcomm : ∀ x, pred (f x) = pred x) :
    (l.map f).find? pred = (l.find? pred).map f := by
  induction l with
  | nil => simp
  | cons x rest ih =>
    simp only [List.map_cons, List.find?_cons]
    cases hx : pred x with
    | true => simp [hcomm x, hx]
    | false => simp [hcomm x, hx, ih]

theorem planGuess_ok (db : DB) (fp raw : List Char) (p : GuessPlan)
    (player : PlayerRec) (g0 : GameRec) (target : List Char)
    (hp : playerByFingerprint db fp = some player)
    (hl : lookupTarget db player.id = some (g0, target))
    (h : planGuess db fp raw = Except.ok p) :
    p.game = g0 ∧ p.target = target ∧ p.word = (pyStrip raw).map pyLower ∧
    p.guessNumber = g0.numGuesses + 1 ∧
    p.result = evaluateGuess ((pyStrip raw).map pyLower) target ∧
    p.newStatus = (if (pyStrip raw).map pyLower = target then GStatus.won
                   else if g0.numGuesses + 1 = 6 ∧ ¬ ((pyStrip raw).map pyLower = target)
                   then GStatus.lost else GStatus.active) ∧
    ((pyStrip raw).map pyLower).length = 5 ∧
    ((pyStrip raw).map pyLower).all pyIsAlpha = true ∧
    inBank db ((pyStrip raw).map pyLower) = true := by
  unfold planGuess at h
  simp only [hp, hl] at h
  by_cases h1 : ¬ (((pyStrip raw).map pyLower).length = 5) ∨
      ¬ (((pyStrip raw).map pyLower).all pyIsAlpha = true)
  · rw [if_pos h1] at h
    simp at h
  · rw [if_neg h1] at h
    by_cases h2 : ¬ (inBank db ((pyStrip raw).map pyLower) = true)
    · rw [if_pos h2] at h
      simp at h
    · rw [if_neg h2] at h
      simp only [Except.ok.injEq] at h
      subst h
      push_neg at h1 h2
      refine ⟨rfl, rfl, rfl, rfl, rfl, rfl, h1.1, h1.2, h2⟩

theorem planGuess_invalid (db : DB) (fp raw : List Char)
    (player : PlayerRec) (g0 : GameRec) (target : List Char)
    (hp : playerByFingerprint db fp = some player)
    (hl : lookupTarget db player.id = some (g0, target))
    (hbad : ¬ (((pyStrip raw).map pyLower).length = 5) ∨
      ¬ (((pyStrip raw).map pyLower).all pyIsAlpha = true)) :
    planGuess db fp raw = Except.error ApiError.invalidGuess := by
  unfold planGuess
  simp only [hp, hl]
  rw [if_pos hbad]

theorem planGuess_unknown (db : DB) (fp raw : List Char)
    (player : PlayerRec) (g0 : GameRec) (target : List Char)
    (hp : playerByFingerprint db fp = some player)
    (hl : lookupTarget db player.id = some (g0, target))
    (hlen : ((pyStrip raw).map pyLower).length = 5)
    (halpha : ((pyStrip raw).map pyLower).all pyIsAlpha = true)
    (hbank : inBank db ((pyStrip raw).map pyLower) = false) :
    planGuess db fp raw = Except.error ApiError.unknownWord := by
  unfold planGuess
  simp only [hp, hl]
  rw [if_neg (by simp [hlen, halpha])]
  rw [if_pos (by simp [hbank])]

theorem guessOp_error (db : DB) (fp raw : List Char) (e : ApiError)
    (h : planGuess db fp raw = Except.error e) :
    guessOp db fp raw = (Except.error e, db) := by
  unfold guessOp
  rw [h]

theorem guessOp_ok (db : DB) (fp raw : List Char) (resp : GuessResp) (db2 : DB)
    (h : guessOp db fp raw = (Except.ok resp, db2)) :
    ∃ p, planGuess db fp raw = Except.ok p ∧
      db2 = updateGame (insertGuess db p) p ∧
      resp = { gameId := p.game.id, status := p.newStatus, numGuesses := p.guessNumber,
               latest := { guess := p.word, guessNumber := p.guessNumber, result := p.result },
               guesses := (guessesOf db2 p.game.id).map entryOf,
               answer := if p.newStatus = GStatus.lost then some p.target else none } := by
  unfold guessOp at h
  cases hp : planGuess db fp raw with
  | error e =>
    rw [hp] at h
    simp at h
  | ok p =>
    rw [hp] at h
    simp only [Prod.mk.injEq, Except.ok.injEq] at h
    refine ⟨p, rfl, h.2.symm, ?_⟩
    rw [← h.1, h.2]

/-- Claim C1: for all 5-letter words g and t, `evaluate(g, t)` returns an
ordered sequence of 5 letter-status entries whose letters are exactly the
letters of g in order, position i is marked correct iff `g[i] = t[i]`, and
for every letter value L the number of positions marked correct or present
with letter L never exceeds the number of occurrences of L in t. -/
theorem evaluateGuess_spec (g t : List Char) (hg : g.length = 5) (ht : t.length = 5) :
    (evaluateGuess g t).length = 5 ∧
    (evaluateGuess g t).map Prod.fst = g ∧
    (∀ i, i < 5 →
      ((evaluateGuess g t)[i]?.map Prod.snd = some LStatus.correct ↔ g[i]? = t[i]?)) ∧
    (∀ L : Char, countHits L (evaluateGuess g t) ≤ t.count L) := by
  have hlen : g.length = t.length := by omega
  have hmap : (evaluateGuess g t).map Prod.fst = g := by
    unfold evaluateGuess
    rw [secondPass_map_fst, firstPass_map_fst g t hlen]
  refine ⟨?_, hmap, ?_, ?_⟩
  · have h2 := congrArg List.length hmap
    rw [List.length_map] at h2
    omega
  · intro i hi
    unfold evaluateGuess
    rw [secondPass_correct_iff]
    exact firstPass_correct_iff g t i (by omega) hlen
  · intro L
    unfold evaluateGuess
    exact le_of_le_of_eq (secondPass_countHits L _ _) (firstPass_conservation L g t hlen)

/-- Witness for C1 at g = "aabbb", t = "ababa". -/
theorem evaluateGuess_spec_witness :
    ("aabbb".toList.length = 5 ∧ "ababa".toList.length = 5) ∧
    ((evaluateGuess "aabbb".toList "ababa".toList).length = 5 ∧
     (evaluateGuess "aabbb".toList "ababa".toList).map Prod.fst = "aabbb".toList ∧
     (∀ i, i < 5 →
       ((evaluateGuess "aabbb".toList "ababa".toList)[i]?.map Prod.snd = some LStatus.correct ↔
         "aabbb".toList[i]? = "ababa".toList[i]?)) ∧
     (∀ L : Char, countHits L (evaluateGuess "aabbb".toList "ababa".toList) ≤
       "ababa".toList.count L)) :=
  ⟨⟨by decide, by decide⟩, evaluateGuess_spec _ _ (by decide) (by decide)⟩

theorem new_game_active_resp (db : DB) (fp : List Char) (k : Nat)
    (player : PlayerRec) (g0 : GameRec)
    (hp : playerByFingerprint db fp = some player)
    (hg : activeGame db player.id = some g0) :
    new_game db fp k =
      (Except.ok { gameId := g0.id, guesses := (guessesOf db g0.id).map entryOf }, db) := by
  unfold new_game
  simp only [hp, hg]

/-- Claim C4: when the player already has an active game, start-game is an
idempotent no-op: it returns the existing game's id with its guess history
in guess-number order (a permutation of exactly that game's stored guesses,
sorted), creates nothing and leaves the state unchanged, for every
randomness oracle value. -/
theorem new_game_resume (db : DB) (fp : List Char) (k : Nat)
    (player : PlayerRec) (g0 : GameRec)
    (hp : playerByFingerprint db fp = some player)
    (hg : activeGame db player.id = some g0) :
    new_game db fp k =
      (Except.ok { gameId := g0.id, guesses := (guessesOf db g0.id).map entryOf }, db) ∧
    (guessesOf db g0.id).Perm (db.guesses.filter (fun q => decide (q.gameId = g0.id))) ∧
    ((guessesOf db g0.id).map entryOf).Pairwise (fun a b => a.guessNumber ≤ b.guessNumber) := by
  refine ⟨new_game_active_resp db fp k player g0 hp hg, guessesOf_perm db g0.id, ?_⟩
  exact List.Pairwise.map entryOf (fun a b hab => hab)
      (sortByNumber_sorted (db.guesses.filter (fun q => decide (q.gameId = g0.id))))

/-- Witness for C4 at `dbActive`. -/
theorem new_game_resume_witness :
    (playerByFingerprint dbActive "f".toList = some ⟨1, "bob".toList, "f".toList⟩ ∧
     activeGame dbActive 1 = some ⟨1, 1, 1, GStatus.active, 1, none⟩) ∧
    new_game dbActive "f".toList 3 =
      (Except.ok { gameId := 1, guesses := (guessesOf dbActive 1).map entryOf }, dbActive) :=
  ⟨⟨by decide, by decide⟩,
   (new_game_resume dbActive "f".toList 3 ⟨1, "bob".toList, "f".toList⟩
     ⟨1, 1, 1, GStatus.active, 1, none⟩ (by decide) (by decide)).1⟩

/-- Claim C6: a guess whose normalized form is not exactly 5 alphabetic
characters fails with InvalidGuess, and one that is well-formed but not in
the word bank fails with UnknownWord; in both cases the returned state is
the input state, so neither the game nor the guess history is mutated. -/
theorem guess_precondition_failure (db : DB) (fp raw : List Char)
    (player : PlayerRec) (g0 : GameRec) (target : List Char)
    (hp : playerByFingerprint db fp = some player)
    (hl : lookupTarget db player.id = some (g0, target)) :
    (¬ (((pyStrip raw).map pyLower).length = 5) ∨
        ¬ (((pyStrip raw).map pyLower).all pyIsAlpha = true) →
      guessOp db fp raw = (Except.error ApiError.invalidGuess, db)) ∧
    (((pyStrip raw).map pyLower).length = 5 →
      ((pyStrip raw).map pyLower).all pyIsAlpha = true →
      inBank db ((pyStrip raw).map pyLower) = false →
      guessOp db fp raw = (Except.error ApiError.unknownWord, db)) := by
  constructor
  · intro hbad
    exact guessOp_error _ _ _ _ (planGuess_invalid db fp raw player g0 target hp hl hbad)
  · intro h5 ha hb
    exact guessOp_error _ _ _ _ (planGuess_unknown db fp raw player g0 target hp hl h5 ha hb)

/-- Witness for C6: guesses "app1e" (malformed) and "zzzzz" (unknown) at
`dbActive`. -/
theorem guess_precondition_failure_witness :
    (playerByFingerprint dbActive "f".toList = some ⟨1, "bob".toList, "f".toList⟩ ∧
     lookupTarget dbActive 1 = some (⟨1, 1, 1, GStatus.active, 1, none⟩, "apple".toList)) ∧
    guessOp dbActive "f".toList "app1e".toList = (Except.error ApiError.invalidGuess, dbActive) ∧
    guessOp dbActive "f".toList "zzzzz".toList = (Except.error ApiError.unknownWord, dbActive) := by
  refine ⟨⟨by decide, by decide⟩, ?_, ?_⟩
  · exact (guess_precondition_failure dbActive "f".toList "app1e".toList
      ⟨1, "bob".toList, "f".toList⟩ ⟨1, 1, 1, GStatus.active, 1, none⟩ "apple".toList
      (by decide) (by decide)).1 (by decide)
  · exact (guess_precondition_failure dbActive "f".toList "zzzzz".toList
      ⟨1, "bob".toList, "f".toList⟩ ⟨1, 1, 1, GStatus.active, 1, none⟩ "apple".toList
      (by decide) (by decide)).2 (by decide) (by decide) (by decide)

/-- Claim C8 as amended: register fails with InvalidInput whenever the name is
empty after trimming (this check runs first); otherwise it fails with
Conflict when a player already exists for the fingerprint; otherwise it
creates and returns a new Player with the trimmed name. A second
registration with the same fingerprint and a nonempty trimmed name
therefore always fails with Conflict. -/
theorem register_spec (db : DB) (fp rawName : List Char) :
    (pyStrip rawName = [] → register db fp rawName = (Except.error ApiError.invalidInput, db)) ∧
    (pyStrip rawName ≠ [] → playerByFingerprint db fp ≠ none →
      register db fp rawName = (Except.error ApiError.conflict, db)) ∧
    (pyStrip rawName ≠ [] → playerByFingerprint db fp = none →
      register db fp rawName =
        (Except.ok ⟨db.nextPlayerId, pyStrip rawName, fp⟩,
         { db with players := db.players ++ [⟨db.nextPlayerId, pyStrip rawName, fp⟩],
                   nextPlayerId := db.nextPlayerId + 1 })) := by
  refine ⟨?_, ?_, ?_⟩
  · intro he
    unfold register
    rw [if_pos he]
  · intro hne hex
    unfold register
    rw [if_neg hne]
    cases hpf : playerByFingerprint db fp with
    | none => exact absurd hpf hex
    | some p => rfl
  · intro hne hnone
    unfold register
    rw [if_neg hne, hnone]

/-- Claim C8 counterexample: for a fingerprint that already has a player, a
second registration with a whitespace-only name fails with InvalidInput,
not Conflict, because the code checks the empty name before the
fingerprint conflict - refuting the claim that a second registration with
the same fingerprint always fails with Conflict. -/
theorem register_conflict_counterexample :
    playerByFingerprint dbActive "f".toList ≠ none ∧
    (register dbActive "f".toList "   ".toList).1 = Except.error ApiError.invalidInput ∧
    (register dbActive "f".toList "   ".toList).1 ≠ Except.error ApiError.conflict := by
  decide

/-- Witness for the amended C8: all three branches at `dbActive`. -/
theorem register_spec_witness :
    (pyStrip "   ".toList = [] ∧ pyStrip " sue ".toList ≠ [] ∧
     playerByFingerprint dbActive "f".toList ≠ none ∧
     playerByFingerprint dbActive "g".toList = none) ∧
    register dbActive "f".toList "   ".toList = (Except.error ApiError.invalidInput, dbActive) ∧
    register dbActive "f".toList " sue ".toList = (Except.error ApiError.conflict, dbActive) ∧
    register dbActive "g".toList " sue ".toList =
      (Except.ok ⟨2, "sue".toList, "g".toList⟩,
       { dbActive with players := dbActive.players ++ [⟨2, "sue".toList, "g".toList⟩],
                       nextPlayerId := 3 }) := by
  refine ⟨⟨by decide, by decide, by decide, by decide⟩, ?_, ?_, ?_⟩
  · exact (register_spec dbActive "f".toList "   ".toList).1 (by decide)
  · exact (register_spec dbActive "f".toList " sue ".toList).2.1 (by decide) (by decide)
  · exact (register_spec dbActive "g".toList " sue ".toList).2.2 (by decide) (by decide)

/-- Claim C10: a guess whose normalized form has exactly 5 characters that all
satisfy Python's isalpha but are not all ASCII passes the format check, and
since every bank word is ASCII it then fails the dictionary test with
UnknownWord - never with InvalidGuess. -/
theorem guess_nonascii_unknownword (db : DB) (fp raw : List Char)
    (player : PlayerRec) (g0 : GameRec) (target : List Char)
    (hp : playerByFingerprint db fp = some player)
    (hl : lookupTarget db player.id = some (g0, target))
    (h5 : ((pyStrip raw).map pyLower).length = 5)
    (halpha : ((pyStrip raw).map pyLower).all pyIsAlpha = true)
    (hna : ∃ c ∈ (pyStrip raw).map pyLower, ¬ c.toNat < 0x80)
    (hbank : ∀ w ∈ db.words, ∀ c ∈ w.word, c.toNat < 0x80) :
    guessOp db fp raw = (Except.error ApiError.unknownWord, db) := by
  have hb : inBank db ((pyStrip raw).map pyLower) = false := by
    rcases hna with ⟨c, hc, hcna⟩
    unfold inBank
    rw [List.any_eq_false]
    intro r hr
    simp only [decide_eq_true_eq]
    intro heq
    exact hcna (hbank r hr c (heq.symm ▸ hc))
  exact guessOp_error _ _ _ _ (planGuess_unknown db fp raw player g0 target hp hl h5 halpha hb)

/-- Witness for C10: the guess "naïve" at `dbActive`. -/
theorem guess_nonascii_unknownword_witness :
    (((pyStrip "naïve".toList).map pyLower).length = 5 ∧
     ((pyStrip "naïve".toList).map pyLower).all pyIsAlpha = true ∧
     (∃ c ∈ (pyStrip "naïve".toList).map pyLower, ¬ c.toNat < 0x80) ∧
     (∀ w ∈ dbActive.words, ∀ c ∈ w.word, c.toNat < 0x80)) ∧
    guessOp dbActive "f".toList "naïve".toList = (Except.error ApiError.unknownWord, dbActive) :=
  ⟨⟨by decide, by decide, by decide, by decide⟩,
   guess_nonascii_unknownword dbActive "f".toList "naïve".toList
     ⟨1, "bob".toList, "f".toList⟩ ⟨1, 1, 1, GStatus.active, 1, none⟩ "apple".toList
     (by decide) (by decide) (by decide) (by decide) (by decide) (by decide)⟩

theorem applyUpdate_id (p : GuessPlan) (ts : Nat) (g : GameRec) :
    (applyUpdate p ts g).id = g.id := by
  unfold applyUpdate
  split_ifs <;> rfl

theorem gameById_updateGame (db : DB) (p : GuessPlan) (gid : Nat) :
    gameById (updateGame db p) gid = (gameById db gid).map (applyUpdate p db.now) := by
  unfold gameById updateGame
  exact find?_map_comm (applyUpdate p db.now) (fun g => decide (g.id = gid)) db.games
    (fun g => by simp only [applyUpdate_id])

theorem activeGame_some (db : DB) (pid : Nat) (g : GameRec)
    (h : activeGame db pid = some g) :
    g ∈ db.games ∧ g.playerId = pid ∧ g.status = GStatus.active := by
  unfold activeGame at h
  have hm := List.mem_of_find?_eq_some h
  have hpred := List.find?_some h
  simp only [decide_eq_true_eq] at hpred
  exact ⟨hm, hpred.1, hpred.2⟩

theorem lookupTarget_some (db : DB) (pid : Nat) (g : GameRec) (target : List Char)
    (h : lookupTarget db pid = some (g, target)) :
    activeGame db pid = some g ∧ ∃ w, wordById db g.wordId = some w ∧ w.word = target := by
  unfold lookupTarget at h
  cases ha : activeGame db pid with
  | none => simp [ha] at h
  | some g2 =>
    simp only [ha] at h
    cases hw : wordById db g2.wordId with
    | none => simp [hw] at h
    | some w =>
      simp only [hw, Option.some.injEq, Prod.mk.injEq] at h
      obtain ⟨hg2, htg⟩ := h
      refine ⟨?_, w, ?_, htg⟩
      · rw [hg2]
      · rw [← hg2]
        exact hw

/-- Claim C2: for every successful guess submission against an active game, the
resulting game status is won iff the normalized guess equals the target,
otherwise lost iff this was the 6th guess, otherwise still active; and a
completion timestamp is set on the game exactly when the new status is won
or lost. -/
theorem guess_status_completion (db : DB) (fp raw : List Char) (resp : GuessResp) (db2 : DB)
    (player : PlayerRec) (g0 : GameRec) (target : List Char)
    (hp : playerByFingerprint db fp = some player)
    (hl : lookupTarget db player.id = some (g0, target))
    (hfind : gameById db g0.id = some g0)
    (hc0 : g0.completedAt = none)
    (h : guessOp db fp raw = (Except.ok resp, db2)) :
    ∃ g1, gameById db2 g0.id = some g1 ∧
      resp.status = g1.status ∧
      g1.status = (if (pyStrip raw).map pyLower = target then GStatus.won
                   else if g0.numGuesses + 1 = 6 then GStatus.lost
                   else GStatus.active) ∧
      g1.numGuesses = g0.numGuesses + 1 ∧
      (g1.completedAt ≠ none ↔ g1.status = GStatus.won ∨ g1.status = GStatus.lost) := by
  obtain ⟨p, hplan, hdb2, hresp⟩ := guessOp_ok db fp raw resp db2 h
  obtain ⟨hg, ht, hw, hn, hres, hst, hrest⟩ :=
    planGuess_ok db fp raw p player g0 target hp hl hplan
  have hst0 : g0.status = GStatus.active :=
    (activeGame_some db player.id g0 (lookupTarget_some db player.id g0 target hl).1).2.2
  have hid : g0.id = p.game.id := by rw [hg]
  have hmid : gameById (insertGuess db p) g0.id = some g0 := hfind
  have hupd : gameById db2 g0.id = some (applyUpdate p db.now g0) := by
    rw [hdb2, gameById_updateGame, hmid]
    rfl
  by_cases hwin : (pyStrip raw).map pyLower = target
  · have hstat : p.newStatus = GStatus.won := by rw [hst, if_pos hwin]
    have hg1 : applyUpdate p db.now g0 =
        { g0 with numGuesses := p.guessNumber, status := p.newStatus,
                  completedAt := some db.now } := by
      unfold applyUpdate
      rw [if_pos hid, if_pos (Or.inl hstat)]
    refine ⟨_, hupd, ?_, ?_, ?_, ?_⟩ <;> rw [hg1] <;> simp [hresp, hstat, hn, hwin]
  · by_cases h6 : g0.numGuesses + 1 = 6
    · have hstat : p.newStatus = GStatus.lost := by
        rw [hst, if_neg hwin, if_pos ⟨h6, hwin⟩]
      have hg1 : applyUpdate p db.now g0 =
          { g0 with numGuesses := p.guessNumber, status := p.newStatus,
                    completedAt := some db.now } := by
        unfold applyUpdate
        rw [if_pos hid, if_pos (Or.inr hstat)]
      refine ⟨_, hupd, ?_, ?_, ?_, ?_⟩ <;> rw [hg1] <;> simp [hresp, hstat, hn, hwin, h6]
    · have hstat : p.newStatus = GStatus.active := by
        rw [hst, if_neg hwin, if_neg (by tauto)]
      have hg1 : applyUpdate p db.now g0 = { g0 with numGuesses := p.guessNumber } := by
        unfold applyUpdate
        rw [if_pos hid, if_neg (by rw [hstat]; simp)]
      refine ⟨_, hupd, ?_, ?_, ?_, ?_⟩ <;> rw [hg1] <;>
        simp [hresp, hstat, hn, hwin, h6, hst0, hc0]

/-- Witness for C2: the winning "apple" guess from `dbFresh`. -/
theorem guess_status_completion_witness :
    (playerByFingerprint dbFresh "f".toList = some ⟨1, "bob".toList, "f".toList⟩ ∧
     lookupTarget dbFresh 1 = some (⟨1, 1, 1, GStatus.active, 0, none⟩, "apple".toList) ∧
     gameById dbFresh 1 = some ⟨1, 1, 1, GStatus.active, 0, none⟩ ∧
     guessOp dbFresh "f".toList "apple".toList = (Except.ok wonResp, dbFreshWon)) ∧
    (∃ g1, gameById dbFreshWon 1 = some g1 ∧
      wonResp.status = g1.status ∧
      g1.status = (if (pyStrip "apple".toList).map pyLower = "apple".toList then GStatus.won
                   else if 0 + 1 = 6 then GStatus.lost
                   else GStatus.active) ∧
      g1.numGuesses = 0 + 1 ∧
      (g1.completedAt ≠ none ↔ g1.status = GStatus.won ∨ g1.status = GStatus.lost)) :=
  ⟨⟨by decide, by decide, by decide, by decide⟩,
   guess_status_completion dbFresh "f".toList "apple".toList wonResp dbFreshWon
     ⟨1, "bob".toList, "f".toList⟩ ⟨1, 1, 1, GStatus.active, 0, none⟩ "apple".toList
     (by decide) (by decide) (by decide) (by decide) (by decide)⟩

/-- Claim C5 counterexample: the guess route commits its two mutations in two
separate transactions (`execute_db` commits per statement), so the committed
state reached after the first transaction of a concrete winning submission
has the new guess row stored while the games rows are exactly those of the
initial state - the guess is visible without the game's count or status
having been updated, contradicting atomicity as claimed. -/
theorem guess_atomicity_counterexample :
    midState ∈ guessCommitStates dbFresh "f".toList "apple".toList ∧
    midState.guesses.length = 1 ∧
    dbFresh.guesses.length = 0 ∧
    midState.games = dbFresh.games := by decide

/-- Claim C5 as amended: a guess submission that runs to completion passes
through the committed states db, insertGuess db p, db2 in that order; the
intermediate committed state carries the new guess row with the games table
unchanged, and only the final state also carries the games update, so the
pair of mutations is applied in two separately committed steps rather than
atomically. -/
theorem guess_commit_sequence (db : DB) (fp raw : List Char) (resp : GuessResp) (db2 : DB)
    (h : guessOp db fp raw = (Except.ok resp, db2)) :
    ∃ p, planGuess db fp raw = Except.ok p ∧
      guessCommitStates db fp raw = [db, insertGuess db p, db2] ∧
      (insertGuess db p).games = db.games ∧
      (insertGuess db p).guesses =
        db.guesses ++ [⟨p.game.id, p.word, p.guessNumber, p.result⟩] ∧
      db2.guesses = (insertGuess db p).guesses ∧
      db2.games = db.games.map (applyUpdate p db.now) := by
  obtain ⟨p, hplan, hdb2, hresp⟩ := guessOp_ok db fp raw resp db2 h
  refine ⟨p, hplan, ?_, rfl, rfl, ?_, ?_⟩
  · unfold guessCommitStates
    rw [hplan, hdb2]
  · rw [hdb2]
    rfl
  · rw [hdb2]
    rfl

/-- Witness for the amended C5: the winning "apple" guess from `dbFresh`. -/
theorem guess_commit_sequence_witness :
    guessOp dbFresh "f".toList "apple".toList = (Except.ok wonResp, dbFreshWon) ∧
    (∃ p, planGuess dbFresh "f".toList "apple".toList = Except.ok p ∧
      guessCommitStates dbFresh "f".toList "apple".toList =
        [dbFresh, insertGuess dbFresh p, dbFreshWon] ∧
      (insertGuess dbFresh p).games = dbFresh.games ∧
      (insertGuess dbFresh p).guesses =
        dbFresh.guesses ++ [⟨p.game.id, p.word, p.guessNumber, p.result⟩] ∧
      dbFreshWon.guesses = (insertGuess dbFresh p).guesses ∧
      dbFreshWon.games = dbFresh.games.map (applyUpdate p dbFresh.now)) :=
  ⟨by decide,
   guess_commit_sequence dbFresh "f".toList "apple".toList wonResp dbFreshWon (by decide)⟩

theorem register_state (db : DB) (fp rawName : List Char) :
    (register db fp rawName).2.games = db.games := by
  unfold register
  by_cases he : pyStrip rawName = []
  · rw [if_pos he]
  · rw [if_neg he]
    cases playerByFingerprint db fp with
    | none => rfl
    | some p => rfl

theorem current_game_state (db : DB) (fp : List Char) : (current_game db fp).2 = db := by
  unfold current_game
  cases hpf : playerByFingerprint db fp with
  | none => rfl
  | some player =>
    cases hag : activeGame db player.id <;> simp [hag]

theorem randomPick_eq_none (pool : List WordRec) (k : Nat) :
    randomPick pool k = none ↔ pool = [] := by
  unfold randomPick
  by_cases h : pool.length = 0
  · rw [dif_pos h]
    simp [List.length_eq_zero.mp h]
  · rw [dif_neg h]
    simp
    intro he
    exact h (by rw [he]; rfl)

theorem randomPick_mem (pool : List WordRec) (k : Nat) (w : WordRec)
    (h : randomPick pool k = some w) : w ∈ pool := by
  unfold randomPick at h
  by_cases h0 : pool.length = 0
  · rw [dif_pos h0] at h
    exact absurd h (by simp)
  · rw [dif_neg h0] at h
    simp only [Option.some.injEq] at h
    rw [← h]
    exact List.get_mem pool _ _

theorem randomPick_surj (pool : List WordRec) (w : WordRec) (hw : w ∈ pool) :
    ∃ j, randomPick pool j = some w := by
  rcases List.mem_iff_get.mp hw with ⟨i, hi⟩
  refine ⟨i.1, ?_⟩
  unfold randomPick
  have h0 : ¬ pool.length = 0 := by
    intro h
    rw [List.length_eq_zero.mp h] at hw
    simp at hw
  rw [dif_neg h0]
  have : i.1 % pool.length = i.1 := Nat.mod_eq_of_lt i.2
  simp only [Option.some.injEq]
  rw [← hi]
  congr 1
  exact Fin.ext this

theorem new_game_cases (db : DB) (fp : List Char) (k : Nat) :
    (new_game db fp k).2 = db ∨
    ∃ player w, playerByFingerprint db fp = some player ∧
      activeGame db player.id = none ∧
      (randomPick (unseenWords db player.id) k = some w ∨
        (unseenWords db player.id = [] ∧ randomPick db.words k = some w)) ∧
      (new_game db fp k).2 =
        { db with
          games := db.games ++ [⟨db.nextGameId, player.id, w.id, GStatus.active, 0, none⟩],
          nextGameId := db.nextGameId + 1 } := by
  unfold new_game
  split
  · exact Or.inl rfl
  · next player hpf =>
    split
    · exact Or.inl rfl
    · next hag =>
      simp only []
      split
      · exact Or.inl rfl
      · next w hword =>
        cases hrp : randomPick (unseenWords db player.id) k with
        | some w2 =>
          simp only [hrp, Option.some.injEq] at hword
          subst hword
          exact Or.inr ⟨player, w2, hpf, hag, Or.inl hrp, rfl⟩
        | none =>
          simp only [hrp] at hword
          exact Or.inr ⟨player, w, hpf, hag,
            Or.inr ⟨(randomPick_eq_none _ k).mp hrp, hword⟩, rfl⟩

theorem guessOp_state_cases (db : DB) (fp raw : List Char) :
    (guessOp db fp raw).2 = db ∨
    ∃ p, planGuess db fp raw = Except.ok p ∧
      (guessOp db fp raw).2.games = db.games.map (applyUpdate p db.now) ∧
      (guessOp db fp raw).2.guesses =
        db.guesses ++ [⟨p.game.id, p.word, p.guessNumber, p.result⟩] := by
  unfold guessOp
  cases hplan : planGuess db fp raw with
  | error e => exact Or.inl rfl
  | ok p => exact Or.inr ⟨p, rfl, rfl, rfl⟩

theorem applyUpdate_active (p : GuessPlan) (ts : Nat) (g : GameRec) (pid : Nat)
    (h : (applyUpdate p ts g).playerId = pid ∧ (applyUpdate p ts g).status = GStatus.active) :
    g.playerId = pid ∧ g.status = GStatus.active := by
  unfold applyUpdate at h
  by_cases h1 : g.id = p.game.id
  · rw [if_pos h1] at h
    by_cases h2 : p.newStatus = GStatus.won ∨ p.newStatus = GStatus.lost
    · rw [if_pos h2] at h
      simp only at h
      rcases h2 with h2 | h2 <;> rw [h2] at h <;> exact absurd h.2 (by simp)
    · rw [if_neg h2] at h
      exact h
  · rw [if_neg h1] at h
    exact h

theorem applyUpdate_status (p : GuessPlan) (ts : Nat) (g : GameRec) :
    (applyUpdate p ts g).status = g.status ∨
    (applyUpdate p ts g).status = GStatus.won ∨
    (applyUpdate p ts g).status = GStatus.lost := by
  unfold applyUpdate
  split_ifs with h1 h2
  · rcases h2 with h2 | h2
    · exact Or.inr (Or.inl (by simp [h2]))
    · exact Or.inr (Or.inr (by simp [h2]))
  · exact Or.inl rfl
  · exact Or.inl rfl

theorem games_eq_oneActive (db db2 : DB) (h : db2.games = db.games)
    (hinv : OneActivePerPlayer db) : OneActivePerPlayer db2 := by
  intro pid
  rw [OneActivePerPlayer] at hinv
  rw [h]
  exact hinv pid

/-- Claim C3: register, new_game, current_game and guess all preserve the
invariant that each player has at most one active game; new_game appends an
active game only when the player has none; and in the guess operation every
game either keeps its status or moves to won or lost, so the only way a game
leaves the active state is a guess submission driving it terminal. -/
theorem ops_preserve_one_active (db : DB) (fp rawName rawGuess : List Char) (k : Nat)
    (hinv : OneActivePerPlayer db) :
    OneActivePerPlayer (register db fp rawName).2 ∧
    OneActivePerPlayer (new_game db fp k).2 ∧
    OneActivePerPlayer (current_game db fp).2 ∧
    OneActivePerPlayer (guessOp db fp rawGuess).2 ∧
    ((new_game db fp k).2.games = db.games ∨
      ∃ player gnew, playerByFingerprint db fp = some player ∧
        activeGame db player.id = none ∧ gnew.playerId = player.id ∧
        gnew.status = GStatus.active ∧
        (new_game db fp k).2.games = db.games ++ [gnew]) ∧
    (∀ g1 ∈ (guessOp db fp rawGuess).2.games,
      g1 ∈ db.games ∨
      ∃ g0 ∈ db.games, g0.id = g1.id ∧
        (g1.status = g0.status ∨ g1.status = GStatus.won ∨ g1.status = GStatus.lost)) := by
  have hnewDisj : (new_game db fp k).2.games = db.games ∨
      ∃ player gnew, playerByFingerprint db fp = some player ∧
        activeGame db player.id = none ∧ gnew.playerId = player.id ∧
        gnew.status = GStatus.active ∧
        (new_game db fp k).2.games = db.games ++ [gnew] := by
    rcases new_game_cases db fp k with h | ⟨player, w, hpf, hag, hpick, hst⟩
    · exact Or.inl (by rw [h])
    · exact Or.inr ⟨player, ⟨db.nextGameId, player.id, w.id, GStatus.active, 0, none⟩,
        hpf, hag, rfl, rfl, by rw [hst]⟩
  refine ⟨?_, ?_, ?_, ?_, hnewDisj, ?_⟩
  · exact games_eq_oneActive db _ (register_state db fp rawName) hinv
  · rcases hnewDisj with h | ⟨player, gnew, hpf, hag, hpid, hst, hgames⟩
    · exact games_eq_oneActive db _ h hinv
    · intro pid
      rw [hgames, List.countP_append]
      by_cases hp : pid = player.id
      · have hzero : db.games.countP
            (fun g => decide (g.playerId = pid ∧ g.status = GStatus.active)) = 0 := by
          rw [List.countP_eq_zero]
          intro g hg
          have := List.find?_eq_none.mp hag g hg
          rw [hp]
          exact this
        rw [hzero]
        simp [List.countP_cons]
        split_ifs <;> omega
      · have hzero : List.countP
            (fun g => decide (g.playerId = pid ∧ g.status = GStatus.active)) [gnew] = 0 := by
          rw [List.countP_eq_zero]
          intro g hg
          simp only [List.mem_singleton] at hg
          subst hg
          simp [hpid]
          intro hcon
          exact absurd hcon.symm hp
        rw [hzero]
        have := hinv pid
        omega
  · exact games_eq_oneActive db _ (by rw [current_game_state db fp]) hinv
  · rcases guessOp_state_cases db fp rawGuess with h | ⟨p, hplan, hgames, hguesses⟩
    · exact games_eq_oneActive db _ (by rw [h]) hinv
    · intro pid
      rw [hgames, List.countP_map]
      refine le_trans (List.countP_mono_left ?_) (hinv pid)
      intro g hg hpred
      simp only [Function.comp_apply, decide_eq_true_eq] at hpred ⊢
      exact applyUpdate_active p db.now g pid hpred
  · rcases guessOp_state_cases db fp rawGuess with h | ⟨p, hplan, hgames, hguesses⟩
    · intro g1 hg1
      rw [h] at hg1
      exact Or.inl hg1
    · intro g1 hg1
      rw [hgames] at hg1
      rcases List.mem_map.mp hg1 with ⟨g0, hg0, heq⟩
      refine Or.inr ⟨g0, hg0, ?_, ?_⟩
      · rw [← heq, applyUpdate_id]
      · rw [← heq]
        exact applyUpdate_status p db.now g0

theorem current_game_active (db : DB) (fp : List Char) (player : PlayerRec) (g0 : GameRec)
    (hp : playerByFingerprint db fp = some player)
    (hg : activeGame db player.id = some g0) :
    current_game db fp =
      (Except.ok { gameId := g0.id, status := g0.status, numGuesses := g0.numGuesses,
                   guesses := (guessesOf db g0.id).map entryOf }, db) := by
  unfold current_game
  simp only [hp, hg]

/-- Claim C7: in a successful guess response the answer field carries the
target exactly when the new status is lost; and while the game is active -
given that no recorded guess of the game equals the target, an invariant the
non-terminal guess case itself preserves - no word field of a start/resume,
query-current or non-terminal guess response equals the target. -/
theorem target_revealed_only_on_loss (db : DB) (fp raw : List Char) (k : Nat)
    (player : PlayerRec) (g0 : GameRec) (target : List Char)
    (hp : playerByFingerprint db fp = some player)
    (hl : lookupTarget db player.id = some (g0, target))
    (hhist : ∀ q ∈ db.guesses, q.gameId = g0.id → q.guessWord ≠ target) :
    (∀ resp db2, new_game db fp k = (Except.ok resp, db2) →
      ∀ e ∈ resp.guesses, e.guess ≠ target) ∧
    (∀ resp db2, current_game db fp = (Except.ok resp, db2) →
      ∀ e ∈ resp.guesses, e.guess ≠ target) ∧
    (∀ resp db2, guessOp db fp raw = (Except.ok resp, db2) →
      (resp.answer = some target ↔ resp.status = GStatus.lost) ∧
      (resp.status = GStatus.active →
        resp.latest.guess ≠ target ∧
        (∀ e ∈ resp.guesses, e.guess ≠ target) ∧
        (∀ q ∈ db2.guesses, q.gameId = g0.id → q.guessWord ≠ target))) := by
  have hag := (lookupTarget_some db player.id g0 target hl).1
  refine ⟨?_, ?_, ?_⟩
  · intro resp db2 hng e he
    have hres := new_game_active_resp db fp k player g0 hp hag
    rw [hres] at hng
    simp only [Prod.mk.injEq, Except.ok.injEq] at hng
    rw [← hng.1] at he
    simp only at he
    rcases List.mem_map.mp he with ⟨q, hq, hqe⟩
    rcases (mem_guessesOf db g0.id q).mp hq with ⟨hqdb, hqid⟩
    rw [← hqe]
    exact hhist q hqdb hqid
  · intro resp db2 hcg e he
    have hres := current_game_active db fp player g0 hp hag
    rw [hres] at hcg
    simp only [Prod.mk.injEq, Except.ok.injEq] at hcg
    rw [← hcg.1] at he
    simp only at he
    rcases List.mem_map.mp he with ⟨q, hq, hqe⟩
    rcases (mem_guessesOf db g0.id q).mp hq with ⟨hqdb, hqid⟩
    rw [← hqe]
    exact hhist q hqdb hqid
  · intro resp db2 hgo
    obtain ⟨p, hplan, hdb2, hresp⟩ := guessOp_ok db fp raw resp db2 hgo
    obtain ⟨hg, ht, hw, hn, hres, hst, hrest⟩ :=
      planGuess_ok db fp raw p player g0 target hp hl hplan
    have hguesses2 : db2.guesses =
        db.guesses ++ [⟨p.game.id, p.word, p.guessNumber, p.result⟩] := by
      rw [hdb2]
      rfl
    have hgid : p.game.id = g0.id := by rw [hg]
    constructor
    · rw [hresp]
      simp only
      by_cases hlost : p.newStatus = GStatus.lost
      · rw [if_pos hlost, ht]
        simp [hlost]
      · rw [if_neg hlost]
        simp [hlost]
    · intro hactive
      rw [hresp] at hactive
      simp only at hactive
      have hnw : p.word ≠ target := by
        intro hcon
        rw [hw] at hcon
        rw [hst, if_pos hcon] at hactive
        exact absurd hactive (by simp)
      have hist2 : ∀ q ∈ db2.guesses, q.gameId = g0.id → q.guessWord ≠ target := by
        intro q hq hqid
        rw [hguesses2] at hq
        rcases List.mem_append.mp hq with hq | hq
        · exact hhist q hq hqid
        · simp only [List.mem_singleton] at hq
          subst hq
          exact hnw
      refine ⟨?_, ?_, hist2⟩
      · rw [hresp]
        exact hnw
      · intro e he
        rw [hresp] at he
        simp only at he
        rcases List.mem_map.mp he with ⟨q, hq, hqe⟩
        rcases (mem_guessesOf db2 p.game.id q).mp hq with ⟨hqdb, hqid⟩
        rw [← hqe]
        exact hist2 q hqdb (by rw [hqid, hgid])

/-- Witness for C7 at `dbActive` with the non-terminal guess "crane". -/
theorem target_revealed_only_on_loss_witness :
    (playerByFingerprint dbActive "f".toList = some ⟨1, "bob".toList, "f".toList⟩ ∧
     lookupTarget dbActive 1 = some (⟨1, 1, 1, GStatus.active, 1, none⟩, "apple".toList) ∧
     (∀ q ∈ dbActive.guesses, q.gameId = 1 → q.guessWord ≠ "apple".toList)) ∧
    ((∀ resp db2, new_game dbActive "f".toList 0 = (Except.ok resp, db2) →
       ∀ e ∈ resp.guesses, e.guess ≠ "apple".toList) ∧
     (∀ resp db2, current_game dbActive "f".toList = (Except.ok resp, db2) →
       ∀ e ∈ resp.guesses, e.guess ≠ "apple".toList) ∧
     (∀ resp db2, guessOp dbActive "f".toList "crane".toList = (Except.ok resp, db2) →
       (resp.answer = some "apple".toList ↔ resp.status = GStatus.lost) ∧
       (resp.status = GStatus.active →
         resp.latest.guess ≠ "apple".toList ∧
         (∀ e ∈ resp.guesses, e.guess ≠ "apple".toList) ∧
         (∀ q ∈ db2.guesses, q.gameId = 1 → q.guessWord ≠ "apple".toList)))) :=
  ⟨⟨by decide, by decide, by decide⟩,
   target_revealed_only_on_loss dbActive "f".toList "crane".toList 0
     ⟨1, "bob".toList, "f".toList⟩ ⟨1, 1, 1, GStatus.active, 1, none⟩ "apple".toList
     (by decide) (by decide) (by decide)⟩

theorem randomPick_isSome (pool : List WordRec) (k : Nat) (h : pool ≠ []) :
    ∃ w, randomPick pool k = some w ∧ w ∈ pool := by
  unfold randomPick
  have h0 : ¬ pool.length = 0 := fun hc => h (List.length_eq_zero.mp hc)
  rw [dif_neg h0]
  exact ⟨_, rfl, List.get_mem pool _ _⟩

theorem new_game_create (db : DB) (fp : List Char) (k : Nat) (player : PlayerRec) (w : WordRec)
    (hp : playerByFingerprint db fp = some player)
    (hg : activeGame db player.id = none)
    (hpick : randomPick (unseenWords db player.id) k = some w ∨
      (randomPick (unseenWords db player.id) k = none ∧ randomPick db.words k = some w)) :
    new_game db fp k =
      (Except.ok { gameId := db.nextGameId, guesses := [] },
       { db with
         games := db.games ++ [⟨db.nextGameId, player.id, w.id, GStatus.active, 0, none⟩],
         nextGameId := db.nextGameId + 1 }) := by
  unfold new_game
  simp only [hp, hg]
  rcases hpick with hu | ⟨hu, hfb⟩
  · simp only [hu]
  · simp only [hu, hfb]

theorem mem_unseenWords (db : DB) (pid : Nat) (w : WordRec) :
    w ∈ unseenWords db pid ↔ w ∈ db.words ∧ w.id ∉ playedWordIds db pid := by
  unfold unseenWords
  rw [List.mem_filter]
  simp

/-- Claim C9: when a new game is created the selection pool is exactly the
words not yet used as a target in any of the player's games; whenever that
pool is nonempty the chosen target comes from it (hence was never a prior
target), for every oracle value, and every pool element is chosen by some
oracle value; only when the pool is empty does selection fall back to the
whole bank. Uniformity over the pool is the SQL RANDOM() ordering, modelled
here as the oracle-indexed choice. -/
theorem new_game_pick_unseen (db : DB) (fp : List Char) (k : Nat) (player : PlayerRec)
    (hp : playerByFingerprint db fp = some player)
    (hg : activeGame db player.id = none) :
    (unseenWords db player.id ≠ [] →
      ∃ w ∈ unseenWords db player.id,
        randomPick (unseenWords db player.id) k = some w ∧
        w.id ∉ playedWordIds db player.id ∧
        (new_game db fp k).2.games =
          db.games ++ [⟨db.nextGameId, player.id, w.id, GStatus.active, 0, none⟩]) ∧
    (unseenWords db player.id = [] → db.words ≠ [] →
      ∃ w ∈ db.words,
        randomPick db.words k = some w ∧
        (new_game db fp k).2.games =
          db.games ++ [⟨db.nextGameId, player.id, w.id, GStatus.active, 0, none⟩]) ∧
    (∀ w ∈ unseenWords db player.id, w.id ∉ playedWordIds db player.id) ∧
    (∀ w ∈ unseenWords db player.id, ∃ j, randomPick (unseenWords db player.id) j = some w) ∧
    (∀ w ∈ db.words, ∃ j, randomPick db.words j = some w) := by
  refine ⟨?_, ?_, ?_, ?_, ?_⟩
  · intro hne
    obtain ⟨w, hpick, hmem⟩ := randomPick_isSome (unseenWords db player.id) k hne
    refine ⟨w, hmem, hpick, ((mem_unseenWords db player.id w).mp hmem).2, ?_⟩
    rw [new_game_create db fp k player w hp hg (Or.inl hpick)]
  · intro hempty hwords
    have hnone : randomPick (unseenWords db player.id) k = none :=
      (randomPick_eq_none _ k).mpr hempty
    obtain ⟨w, hpick, hmem⟩ := randomPick_isSome db.words k hwords
    refine ⟨w, hmem, hpick, ?_⟩
    rw [new_game_create db fp k player w hp hg (Or.inr ⟨hnone, hpick⟩)]
  · intro w hw
    exact ((mem_unseenWords db player.id w).mp hw).2
  · intro w hw
    exact randomPick_surj _ w hw
  · intro w hw
    exact randomPick_surj _ w hw

/-- Witness for C9 at `dbDone`, whose unseen pool is exactly "crane". -/
theorem new_game_pick_unseen_witness :
    (playerByFingerprint dbDone "f".toList = some ⟨1, "bob".toList, "f".toList⟩ ∧
     activeGame dbDone 1 = none ∧
     unseenWords dbDone 1 = [⟨2, "crane".toList⟩]) ∧
    ((unseenWords dbDone 1 ≠ [] →
      ∃ w ∈ unseenWords dbDone 1,
        randomPick (unseenWords dbDone 1) 0 = some w ∧
        w.id ∉ playedWordIds dbDone 1 ∧
        (new_game dbDone "f".toList 0).2.games =
          dbDone.games ++ [⟨2, 1, w.id, GStatus.active, 0, none⟩]) ∧
     (unseenWords dbDone 1 = [] → dbDone.words ≠ [] →
      ∃ w ∈ dbDone.words,
        randomPick dbDone.words 0 = some w ∧
        (new_game dbDone "f".toList 0).2.games =
          dbDone.games ++ [⟨2, 1, w.id, GStatus.active, 0, none⟩]) ∧
     (∀ w ∈ unseenWords dbDone 1, w.id ∉ playedWordIds dbDone 1) ∧
     (∀ w ∈ unseenWords dbDone 1, ∃ j, randomPick (unseenWords dbDone 1) j = some w) ∧
     (∀ w ∈ dbDone.words, ∃ j, randomPick dbDone.words j = some w)) :=
  ⟨⟨by decide, by decide, by decide⟩,
   new_game_pick_unseen dbDone "f".toList 0 ⟨1, "bob".toList, "f".toList⟩
     (by decide) (by decide)⟩

/-- Witness for C3 at `dbFresh`. -/
theorem ops_preserve_one_active_witness :
    OneActivePerPlayer dbFresh ∧
    (OneActivePerPlayer (register dbFresh "f".toList "sue".toList).2 ∧
     OneActivePerPlayer (new_game dbFresh "f".toList 0).2 ∧
     OneActivePerPlayer (current_game dbFresh "f".toList).2 ∧
     OneActivePerPlayer (guessOp dbFresh "f".toList "apple".toList).2 ∧
     ((new_game dbFresh "f".toList 0).2.games = dbFresh.games ∨
       ∃ player gnew, playerByFingerprint dbFresh "f".toList = some player ∧
         activeGame dbFresh player.id = none ∧ gnew.playerId = player.id ∧
         gnew.status = GStatus.active ∧
         (new_game dbFresh "f".toList 0).2.games = dbFresh.games ++ [gnew]) ∧
     (∀ g1 ∈ (guessOp dbFresh "f".toList "apple".toList).2.games,
       g1 ∈ dbFresh.games ∨
       ∃ g0 ∈ dbFresh.games, g0.id = g1.id ∧
         (g1.status = g0.status ∨ g1.status = GStatus.won ∨ g1.status = GStatus.lost))) := by
  have hinv : OneActivePerPlayer dbFresh := by
    intro pid
    rw [show dbFresh.games = [⟨1, 1, 1, GStatus.active, 0, none⟩] from rfl]
    rw [List.countP_cons, List.countP_nil]
    split_ifs <;> omega
  exact ⟨hinv,
    ops_preserve_one_active dbFresh "f".toList "sue".toList "apple".toList 0 hinv⟩
